import Mathlib

/-!
Verification development for the GMFlow multi-scale optical-flow module
(`gmflow_minimal.py`).

The embedding models tensors as shape-annotated real-valued arrays
(`shape : List Nat`, `data : List Nat → ℝ`); the `data` function is only
meaningful on in-range indices.  External collaborators (the backbone, the
correlation-softmax matchers, the backward warp, the flow self-attention
propagator and the learned convex-upsampling mask network) are modelled as
opaque function parameters collected in a `Collab` structure, exactly as the
spec treats them (input/output contracts only).  Fallible tensor operations
(concatenation, addition, view/reshape, Python list indexing, the length
assertion) return `Except GMErr`.
-/

/-- A torch tensor: a shape together with a total indexing function.
Only indices that are in range for `shape` are meaningful. -/
structure Tensor where
  shape : List Nat
  data : List Nat → ℝ

/-- Runtime errors the module can raise: shape mismatches (torch
`RuntimeError`), Python `IndexError` on list indexing, the failed `assert`,
and `TypeError` (an operation applied to `None`). -/
inductive GMErr where
  | shapeError
  | indexError
  | assertionError
  | typeError
deriving DecidableEq, Repr

/-- Observable events of one `forward_image` call, used to record the order
of computation: feature extraction, and the start of each scale iteration. -/
inductive Event where
  | extract
  | scaleStart (s : Nat)
deriving DecidableEq, Repr

/-- Python `x[i]` on a list: `IndexError` when out of range. -/
def liftO (o : Option α) (e : GMErr) : Except GMErr α :=
  match o with
  | some a => Except.ok a
  | none => Except.error e

/-- Model of `flow.detach()`: identical values; gradient tracking is outside the
value semantics modelled here. -/
def detach (t : Tensor) : Tensor := t

/-- Scalar multiplication of a tensor (`r * t` in torch). -/
def smul (r : ℝ) (t : Tensor) : Tensor :=
  ⟨t.shape, fun idx => r * t.data idx⟩

/-- Data function of `torch.cat((t, u), dim=0)`. -/
def catDim0Data (t u : Tensor) (a : Nat) : List Nat → ℝ :=
  fun idx =>
    match idx with
    | i :: rest => if i < a then t.data (i :: rest) else u.data ((i - a) :: rest)
    | _ => 0

/-- Model of `torch.cat((t, u), dim=0)`: all dimensions except the first must agree. -/
def catDim0 (t u : Tensor) : Except GMErr Tensor :=
  match t.shape, u.shape with
  | a :: s, a' :: s' =>
      if s = s' then Except.ok ⟨(a + a') :: s, catDim0Data t u a⟩
      else Except.error GMErr.shapeError
  | _, _ => Except.error GMErr.shapeError

/-- Data function of `torch.cat((t, u), dim=1)`. -/
def catDim1Data (t u : Tensor) (c : Nat) : List Nat → ℝ :=
  fun idx =>
    match idx with
    | b :: i :: rest =>
        if i < c then t.data (b :: i :: rest) else u.data (b :: (i - c) :: rest)
    | _ => 0

/-- Model of `torch.cat((t, u), dim=1)`: all dimensions except the second must agree. -/
def catDim1 (t u : Tensor) : Except GMErr Tensor :=
  match t.shape, u.shape with
  | a :: c :: s, a' :: c' :: s' =>
      if a = a' ∧ s = s' then Except.ok ⟨a :: (c + c') :: s, catDim1Data t u c⟩
      else Except.error GMErr.shapeError
  | _, _ => Except.error GMErr.shapeError

/-- Pointwise tensor addition (`flow + flow_pred`); the orchestrator only
ever adds tensors of identical shape, so broadcasting beyond that is not
modelled. -/
def addT (t u : Tensor) : Except GMErr Tensor :=
  if t.shape = u.shape then
    Except.ok ⟨t.shape, fun idx => t.data idx + u.data idx⟩
  else Except.error GMErr.shapeError

/-- Zero-padded element access used by `F.unfold(.., [3, 3], padding=1)`:
the value of `t` at (possibly out-of-range) integer coordinates, with 0
outside the `hIn × wIn` spatial extent. -/
def padGet (t : Tensor) (bb cc hIn wIn : Nat) (yi xi : Int) : ℝ :=
  if 0 ≤ yi ∧ yi < (hIn : Int) ∧ 0 ≤ xi ∧ xi < (wIn : Int) then
    t.data [bb, cc, yi.toNat, xi.toNat]
  else 0

/-- Data function of `F.unfold(t, [3, 3], padding=1)` on a `[b, c, h, w]`
tensor: output channel `ch` decomposes as `c * 9 + (ki * 3 + kj)` and the
flattened spatial position `l` as `i * w + j`. -/
def unfold3x3Data (t : Tensor) (hIn wIn : Nat) : List Nat → ℝ :=
  fun idx =>
    match idx with
    | [bb, ch, l] =>
        padGet t bb (ch / 9) hIn wIn
          ((l / wIn : Nat) + (ch % 9 / 3 : Nat) - 1)
          ((l % wIn : Nat) + (ch % 9 % 3 : Nat) - 1)
    | _ => 0

/-- Model of `F.unfold(t, [3, 3], padding=1)`: `[b, c, h, w] → [b, c*9, h*w]`. -/
def unfold3x3 (t : Tensor) : Except GMErr Tensor :=
  match t.shape with
  | [b, c, hIn, wIn] => Except.ok ⟨[b, c * 9, hIn * wIn], unfold3x3Data t hIn wIn⟩
  | _ => Except.error GMErr.shapeError

/-- Data function of `mask.view(b, 1, 9, K, K, h, w)` applied to the
`[b, 9*K*K, h, w]` output of the mask network: the channel of the source
tensor corresponding to tap `t` and sub-pixel `(k1, k2)` is
`(t*K + k1)*K + k2` (row-major split of the channel dim into `(1,9,K,K)`). -/
def view7MaskData (mask0 : Tensor) (K : Nat) : List Nat → ℝ :=
  fun idx =>
    match idx with
    | [bb, _o, t, k1, k2, i, j] => mask0.data [bb, (t * K + k1) * K + k2, i, j]
    | _ => 0

/-- Model of `mask.view(b, 1, 9, K, K, h, w)`.  The source is required to have the
exact shape `[b, 9*K*K, h, w]` produced by the mask network (torch `view`
would accept any layout of equal numel; only this one occurs). -/
def view7Mask (mask0 : Tensor) (b K h w : Nat) : Except GMErr Tensor :=
  if mask0.shape = [b, 9 * (K * K), h, w] then
    Except.ok ⟨[b, 1, 9, K, K, h, w], view7MaskData mask0 K⟩
  else Except.error GMErr.shapeError

/-- Data function of `up_flow.view(b, fc, 9, 1, 1, h, w)` applied to the
`[b, fc*9, h*w]` output of `unfold3x3`. -/
def view7UpData (unf : Tensor) (w : Nat) : List Nat → ℝ :=
  fun idx =>
    match idx with
    | [bb, cc, t, _o1, _o2, i, j] => unf.data [bb, cc * 9 + t, i * w + j]
    | _ => 0

/-- Model of `up_flow.view(b, fc, 9, 1, 1, h, w)` from the unfold output
`[b, fc*9, h*w]` (again restricted to the one layout that occurs). -/
def view7Up (unf : Tensor) (b fc h w : Nat) : Except GMErr Tensor :=
  if unf.shape = [b, fc * 9, h * w] then
    Except.ok ⟨[b, fc, 9, 1, 1, h, w], view7UpData unf w⟩
  else Except.error GMErr.shapeError

/-- Data function of `torch.softmax(t, dim=2)` on the 7-D mask tensor:
each entry is normalised over index 2 (the 9 taps), whose extent is read
from the shape. -/
noncomputable def softmaxDim2Data (t : Tensor) : List Nat → ℝ :=
  fun idx =>
    match idx with
    | [bb, o, u, k1, k2, i, j] =>
        Real.exp (t.data [bb, o, u, k1, k2, i, j]) /
          ∑ v ∈ Finset.range (t.shape.getD 2 0),
            Real.exp (t.data [bb, o, v, k1, k2, i, j])
    | _ => 0

/-- Model of `torch.softmax(t, dim=2)` on the 7-D mask tensor. -/
noncomputable def softmaxDim2 (t : Tensor) : Tensor :=
  ⟨t.shape, softmaxDim2Data t⟩

/-- Data function of `torch.sum(mask * up_flow, dim=2)` for
`mask : [b, 1, n, K, K, h, w]` and `up_flow : [b, c, n, 1, 1, h, w]`
(broadcast multiply over the size-1 dims, then sum over dim 2). -/
noncomputable def mulSumDim2Data (mask up : Tensor) (n : Nat) : List Nat → ℝ :=
  fun idx =>
    match idx with
    | [bb, cc, k1, k2, i, j] =>
        ∑ t ∈ Finset.range n,
          mask.data [bb, 0, t, k1, k2, i, j] * up.data [bb, cc, t, 0, 0, i, j]
    | _ => 0

/-- Model of `torch.sum(mask * up_flow, dim=2)`, specialised to the broadcast
pattern `[b,1,n,K,K,h,w] * [b,c,n,1,1,h,w] → [b,c,K,K,h,w]` used here. -/
noncomputable def mulSumDim2 (mask up : Tensor) : Tensor :=
  match mask.shape, up.shape with
  | [b, _o, n, k1, k2, hh, ww], [_b, c, _n, _o1, _o2, _h, _w] =>
      ⟨[b, c, k1, k2, hh, ww], mulSumDim2Data mask up n⟩
  | _, _ => ⟨[], fun _ => 0⟩

/-- Data function of `up_flow.permute(0, 1, 4, 2, 5, 3)`: the new index
`[x0,x1,x2,x3,x4,x5]` reads the old entry `[x0,x1,x3,x5,x2,x4]`. -/
def permute014253Data (t : Tensor) : List Nat → ℝ :=
  fun idx =>
    match idx with
    | [x0, x1, x2, x3, x4, x5] => t.data [x0, x1, x3, x5, x2, x4]
    | _ => 0

/-- Model of `up_flow.permute(0, 1, 4, 2, 5, 3)`: `[b,c,K,K,h,w] → [b,c,h,K,w,K]`. -/
def permute014253 (t : Tensor) : Tensor :=
  match t.shape with
  | [d0, d1, d2, d3, d4, d5] => ⟨[d0, d1, d4, d2, d5, d3], permute014253Data t⟩
  | _ => ⟨[], fun _ => 0⟩

/-- Data function of the final `reshape(b, fc, K*h, K*w)` from the
contiguous permuted tensor `[b, fc, h, K, w, K]`: output row `y`
decomposes as `(y / K) * K + y % K`, and similarly for columns. -/
def mergeKKData (t : Tensor) (d3 d5 : Nat) : List Nat → ℝ :=
  fun idx =>
    match idx with
    | [bb, cc, y, x] => t.data [bb, cc, y / d3, y % d3, x / d5, x % d5]
    | _ => 0

/-- Model of `up_flow.reshape(b, fc, K*h, K*w)` merging the `(h, K)` and `(w, K)`
axis pairs of a 6-D tensor. -/
def mergeKK (t : Tensor) : Tensor :=
  match t.shape with
  | [b, c, d2, d3, d4, d5] => ⟨[b, c, d2 * d3, d4 * d5], mergeKKData t d3 d5⟩
  | _ => ⟨[], fun _ => 0⟩

/-- Source coordinate of `F.interpolate(..., mode='bilinear',
align_corners=True)`: output index `o` of an axis of size `outS` samples the
input axis of size `inS` at `o * (inS - 1) / (outS - 1)`. -/
def srcCoord (inS outS o : Nat) : ℚ :=
  if outS ≤ 1 then 0 else (o : ℚ) * ((inS : ℚ) - 1) / ((outS : ℚ) - 1)

/-- Bilinear sample of `t` (a `[b, c, hIn, wIn]` tensor) at fractional
coordinates `(sy, sx)`, with border clamping as in torch. -/
noncomputable def bilinearAt (t : Tensor) (bb cc hIn wIn : Nat) (sy sx : ℚ) : ℝ :=
  let y0 : Nat := min sy.floor.toNat (hIn - 1)
  let x0 : Nat := min sx.floor.toNat (wIn - 1)
  let y1 : Nat := min (y0 + 1) (hIn - 1)
  let x1 : Nat := min (x0 + 1) (wIn - 1)
  let fy : ℝ := ((sy - (y0 : ℚ) : ℚ) : ℝ)
  let fx : ℝ := ((sx - (x0 : ℚ) : ℚ) : ℝ)
  (1 - fy) * (1 - fx) * t.data [bb, cc, y0, x0]
    + (1 - fy) * fx * t.data [bb, cc, y0, x1]
    + fy * (1 - fx) * t.data [bb, cc, y1, x0]
    + fy * fx * t.data [bb, cc, y1, x1]

/-- Data function of bilinear `F.interpolate` with integer scale factor
`k` and `align_corners=True`. -/
noncomputable def interpData (t : Tensor) (hIn wIn k : Nat) : List Nat → ℝ :=
  fun idx =>
    match idx with
    | [bb, cc, y, x] =>
        bilinearAt t bb cc hIn wIn (srcCoord hIn (k * hIn) y) (srcCoord wIn (k * wIn) x)
    | _ => 0

/-- Model of `F.interpolate(t, scale_factor=k, mode='bilinear', align_corners=True)`
on a 4-D tensor: `[b, c, h, w] → [b, c, k*h, k*w]`. -/
noncomputable def interpolateBilinear (t : Tensor) (k : Nat) : Except GMErr Tensor :=
  match t.shape with
  | [b, c, hIn, wIn] => Except.ok ⟨[b, c, k * hIn, k * wIn], interpData t hIn wIn k⟩
  | _ => Except.error GMErr.shapeError

/-- The `GMFlow` module configuration: constructor arguments and the
`nn.Module` training flag.  (Learned submodules are in `Collab`.) -/
structure GMFlow where
  num_scales : Nat
  upsample_factor : Nat
  feature_channels : Nat
  training : Bool

/-- External collaborators, specified only by their use: the ViT backbone,
the learned convex-upsampling mask network (`self.upsampler`), the flow
self-attention propagator (`self.feature_flow_attn`), the two
correlation-softmax matchers and the backward warp.  The matchers return
the flow component (`[0]`) of their tuple result. -/
structure Collab where
  backbone : Tensor → Tensor
  upsampler : Tensor → Tensor
  feature_flow_attn : Tensor → Tensor → Bool → Int → Tensor
  global_correlation_softmax : Tensor → Tensor → Bool → Tensor
  local_correlation_softmax : Tensor → Tensor → Int → Tensor
  flow_warp : Tensor → Tensor → Tensor

/-- The tuple unpacking `b, flow_channel, h, w = flow.shape` (fails unless
the tensor is 4-D). -/
def shape4 (t : Tensor) : Except GMErr (Nat × Nat × Nat × Nat) :=
  match t.shape with
  | [a, c, hh, ww] => Except.ok (a, c, hh, ww)
  | _ => Except.error GMErr.shapeError

/-- Model of `GMFlow.upsample_flow(flow, feature, bilinear, upsample_factor)`.
The bilinear branch interpolates and scales by the `upsample_factor`
argument; the convex branch concatenates flow and feature, produces the
9-tap mask with the learned network, softmax-normalises it over the taps,
unfolds the 3×3 neighbourhood of `self.upsample_factor * flow`, and takes
the mask-weighted sum, using `self.upsample_factor` (`m.upsample_factor`)
throughout — never the `upsample_factor` argument. -/
noncomputable def upsample_flow (m : GMFlow) (C : Collab) (flow : Tensor)
    (feature : Option Tensor) (bilinear : Bool) (upsample_factor : Nat) :
    Except GMErr Tensor :=
  if bilinear then do
    let fi ← interpolateBilinear flow upsample_factor
    Except.ok (smul (upsample_factor : ℝ) fi)
  else do
    let feat ← liftO feature GMErr.typeError
    let concat ← catDim1 flow feat
    let mask0 := C.upsampler concat
    let dims ← shape4 flow
    let mask7 ← view7Mask mask0 dims.1 m.upsample_factor dims.2.2.1 dims.2.2.2
    let mask := softmaxDim2 mask7
    let unf ← unfold3x3 (smul (m.upsample_factor : ℝ) flow)
    let up7 ← view7Up unf dims.1 dims.2.1 dims.2.2.1 dims.2.2.2
    let summed := mulSumDim2 mask up7
    Except.ok (mergeKK (permute014253 summed))

/-- Data function of `torch.stack((img0, img1), dim=1)`. -/
def stack2Dim1Data (t u : Tensor) : List Nat → ℝ :=
  fun idx =>
    match idx with
    | b :: i :: rest => if i = 0 then t.data (b :: rest) else u.data (b :: rest)
    | _ => 0

/-- Model of `torch.stack((t, u), dim=1)`: requires equal shapes, inserts a size-2
axis at position 1. -/
def stack2Dim1 (t u : Tensor) : Except GMErr Tensor :=
  match t.shape with
  | b :: rest =>
      if t.shape = u.shape then Except.ok ⟨b :: 2 :: rest, stack2Dim1Data t u⟩
      else Except.error GMErr.shapeError
  | _ => Except.error GMErr.shapeError

/-- Data function of `.permute(0, 1, 3, 4, 2)` on a 5-D tensor. -/
def permute01342Data (t : Tensor) : List Nat → ℝ :=
  fun idx =>
    match idx with
    | [x0, x1, x2, x3, x4] => t.data [x0, x1, x4, x2, x3]
    | _ => 0

/-- Model of `.permute(0, 1, 3, 4, 2)`: `[a0,a1,a2,a3,a4] → [a0,a1,a3,a4,a2]`. -/
def permute01342 (t : Tensor) : Except GMErr Tensor :=
  match t.shape with
  | [a0, a1, a2, a3, a4] => Except.ok ⟨[a0, a1, a3, a4, a2], permute01342Data t⟩
  | _ => Except.error GMErr.shapeError

/-- Model of `torch.chunk(t, chunks=2, dim=1)` followed by taking `chunks[0]` and
`chunks[1]`: splits dim 1 of extent `d` into pieces of `⌈d/2⌉` and the
remainder; when `d < 2` only one chunk exists and `chunks[1]` raises
`IndexError`. -/
def chunk2Dim1 (t : Tensor) : Except GMErr (Tensor × Tensor) :=
  match t.shape with
  | b :: d :: rest =>
      if d < 2 then Except.error GMErr.indexError
      else
        Except.ok
          (⟨b :: (d + 1) / 2 :: rest, t.data⟩,
           ⟨b :: (d - (d + 1) / 2) :: rest,
            fun idx =>
              match idx with
              | bb :: i :: r => t.data (bb :: (i + (d + 1) / 2) :: r)
              | _ => 0⟩)
  | _ => Except.error GMErr.shapeError

/-- Model of `GMFlow.extract_feature(img0, img1)`: stack the image pair, permute to
`[B, T, H, W, C]`, run the backbone, and chunk its output along dim 1 into
two single-element feature lists.  Note: the returned lists always have
length 1, irrespective of `num_scales`. -/
def extract_feature (C : Collab) (img0 img1 : Tensor) :
    Except GMErr (List Tensor × List Tensor) := do
  let stacked ← stack2Dim1 img0 img1
  let concat ← permute01342 stacked
  let features := C.backbone concat
  let (c0, c1) ← chunk2Dim1 features
  Except.ok ([c0], [c1])

/-- The per-scale upsample factor of line 108:
`self.upsample_factor * 2 ** (self.num_scales - 1 - scale_idx)`. -/
def effective_upsample_factor (m : GMFlow) (s : Nat) : Nat :=
  m.upsample_factor * 2 ^ (m.num_scales - 1 - s)

/-- Output of one iteration of the scale loop: the accumulated flow before
propagation (line 133), the propagated flow (line 149) that seeds the next
scale, and the predictions appended to `flow_preds` by this iteration. -/
structure StepOut where
  preProp : Tensor
  flowOut : Tensor
  preds : List Tensor

/-- One gated `flow_preds.append(upsample_flow(...))`: when the gate is
false nothing is computed or appended. -/
noncomputable def gatedUpsample (cond : Prop) [Decidable cond]
    (u : Except GMErr Tensor) : Except GMErr (List Tensor) :=
  if cond then do
    let t ← u
    Except.ok [t]
  else Except.ok []

/-- Intermediate state of one scale iteration after residual accumulation
(end of line 133): the (possibly bidirectionally stacked) features, the
accumulated flow, and the propagation radius read for this scale. -/
structure PreOut where
  feature0 : Tensor
  feature1 : Tensor
  flowAcc : Tensor
  prop_radius : Int

/-- Lines 101-133 of the loop body: select (and, for bidirectional refine
scales, batch-concatenate) the features, 2×-upsample-and-double the
running flow, detach it and warp `feature1` with it, read the per-scale
parameters, run the correlation matcher (global iff radius is −1), and
accumulate `flow = flow + flow_pred if flow is not None else flow_pred`. -/
noncomputable def scaleStepPre (_m : GMFlow) (C : Collab) (f0s f1s : List Tensor)
    (attnL corrL propL : List Int) (bidir : Bool) (s : Nat)
    (flow0 : Option Tensor) : Except GMErr PreOut := do
  let feature0s ← liftO f0s[s]? GMErr.indexError
  let feature1s ← liftO f1s[s]? GMErr.indexError
  let fpair ←
    (if bidir ∧ 0 < s then do
      let a ← catDim0 feature0s feature1s
      let b ← catDim0 feature1s feature0s
      Except.ok (a, b)
    else Except.ok (feature0s, feature1s))
  let flow1 ←
    (if 0 < s then
      match flow0 with
      | some f => do
          let fi ← interpolateBilinear f 2
          Except.ok (some (smul (2 : ℝ) fi))
      | none => Except.error GMErr.typeError
    else Except.ok flow0)
  let wpair :=
    match flow1 with
    | some f => (some (detach f), C.flow_warp fpair.2 (detach f))
    | none => (none, fpair.2)
  let _attn_splits ← liftO attnL[s]? GMErr.indexError
  let corr_radius ← liftO corrL[s]? GMErr.indexError
  let prop_radius ← liftO propL[s]? GMErr.indexError
  let flow_pred :=
    if corr_radius = -1 then C.global_correlation_softmax fpair.1 wpair.2 bidir
    else C.local_correlation_softmax fpair.1 wpair.2 corr_radius
  let flow3 ←
    match wpair.1 with
    | some f => addT f flow_pred
    | none => Except.ok flow_pred
  Except.ok ⟨fpair.1, wpair.2, flow3, prop_radius⟩

/-- The body of `for scale_idx in range(self.num_scales)` in
`forward_image` (lines 99-161), for scale index `s` with running flow
`flow0` (`None` before the first scale): `scaleStepPre` followed by the
two pre-propagation gated appends (lines 138-144), the bidirectional
feature concatenation for propagation (lines 147-148), the propagation
itself (line 149), and the two post-propagation gated appends
(lines 155-161). -/
noncomputable def scaleStep (m : GMFlow) (C : Collab) (f0s f1s : List Tensor)
    (attnL corrL propL : List Int) (bidir : Bool) (s : Nat)
    (flow0 : Option Tensor) : Except GMErr StepOut := do
  let pre ← scaleStepPre m C f0s f1s attnL corrL propL bidir s flow0
  let upfac := effective_upsample_factor m s
  let preds1 ← gatedUpsample (m.training = true ∧ s < m.num_scales - 1)
    (upsample_flow m C pre.flowAcc none true upfac)
  let preds2 ← gatedUpsample (s = m.num_scales - 1)
    (upsample_flow m C pre.flowAcc (some pre.feature0) false 8)
  let feature0p ←
    (if bidir ∧ s = 0 then catDim0 pre.feature0 pre.feature1
    else Except.ok pre.feature0)
  let flowOut := C.feature_flow_attn feature0p (detach pre.flowAcc)
    (decide (0 < pre.prop_radius)) pre.prop_radius
  let preds3 ← gatedUpsample (m.training = true ∧ s < m.num_scales - 1)
    (upsample_flow m C flowOut (some feature0p) true upfac)
  let preds4 ← gatedUpsample (s = m.num_scales - 1)
    (upsample_flow m C flowOut (some feature0p) false 8)
  Except.ok ⟨pre.flowAcc, flowOut, preds1 ++ preds2 ++ preds3 ++ preds4⟩

/-- The scale loop: iterates `scaleStep` over the remaining scale indices,
threading the running flow and accumulating `flow_preds`; records a
`scaleStart` event when an iteration begins. -/
noncomputable def scaleLoop (m : GMFlow) (C : Collab) (f0s f1s : List Tensor)
    (attnL corrL propL : List Int) (bidir : Bool) :
    List Nat → Option Tensor → List Tensor → List Event × Except GMErr (List Tensor)
  | [], _, acc => ([], Except.ok acc)
  | s :: rest, flow0, acc =>
    match scaleStep m C f0s f1s attnL corrL propL bidir s flow0 with
    | Except.error e => ([Event.scaleStart s], Except.error e)
    | Except.ok out =>
        (Event.scaleStart s ::
          (scaleLoop m C f0s f1s attnL corrL propL bidir rest (some out.flowOut)
            (acc ++ out.preds)).1,
         (scaleLoop m C f0s f1s attnL corrL propL bidir rest (some out.flowOut)
            (acc ++ out.preds)).2)

/-- Model of `GMFlow.forward_image`: extracts features, asserts that the three
per-scale parameter lists match `num_scales` (only *after* extraction),
then runs the scale loop.  Returns the event trace together with the
`flow_preds` list of `results_dict` (or the error raised). -/
noncomputable def forward_image (m : GMFlow) (C : Collab) (img0 img1 : Tensor)
    (attnL corrL propL : List Int) (bidir : Bool) :
    List Event × Except GMErr (List Tensor) :=
  match extract_feature C img0 img1 with
  | Except.error e => ([Event.extract], Except.error e)
  | Except.ok fs =>
      if attnL.length = corrL.length ∧ corrL.length = propL.length ∧
          propL.length = m.num_scales then
        (Event.extract ::
          (scaleLoop m C fs.1 fs.2 attnL corrL propL bidir
            (List.range m.num_scales) none []).1,
         (scaleLoop m C fs.1 fs.2 attnL corrL propL bidir
            (List.range m.num_scales) none []).2)
      else ([Event.extract], Except.error GMErr.assertionError)

/-- The mask-network logit feeding tap `t` of output sub-pixel `(k1, k2)`
at coarse location `(i, j)`: channel `(t*K + k1)*K + k2` of the network
output (the layout fixed by `mask.view(b, 1, 9, K, K, h, w)`). -/
def maskLogit (mask0 : Tensor) (K bb k1 k2 i j t : Nat) : ℝ :=
  mask0.data [bb, (t * K + k1) * K + k2, i, j]

/-- Softmax over the 9 taps: weight of tap `t` for the logit family `L`. -/
noncomputable def softmax9 (L : Nat → ℝ) (t : Nat) : ℝ :=
  Real.exp (L t) / ∑ u ∈ Finset.range 9, Real.exp (L u)

/-- Tap `t` (row-major in the 3×3 window) of the zero-padded neighbourhood
of the factor-scaled coarse flow `K * flow` around coarse pixel `(i, j)`,
exactly as extracted by `F.unfold(K * flow, [3, 3], padding=1)`. -/
def convexTap (flow : Tensor) (K hIn wIn bb cc i j t : Nat) : ℝ :=
  padGet (smul (K : ℝ) flow) bb cc hIn wIn
    ((i : Int) + (t / 3 : Nat) - 1) ((j : Int) + (t % 3 : Nat) - 1)

theorem range9_nonempty : (Finset.range 9).Nonempty :=
  ⟨0, Finset.mem_range.mpr (by norm_num)⟩

theorem expSum9_pos (L : Nat → ℝ) : 0 < ∑ u ∈ Finset.range 9, Real.exp (L u) :=
  Finset.sum_pos (fun u _ => Real.exp_pos (L u)) range9_nonempty

theorem softmax9_nonneg (L : Nat → ℝ) (t : Nat) : 0 ≤ softmax9 L t :=
  div_nonneg (Real.exp_pos (L t)).le (expSum9_pos L).le

theorem softmax9_sum_eq_one (L : Nat → ℝ) :
    ∑ t ∈ Finset.range 9, softmax9 L t = 1 := by
  unfold softmax9
  rw [← Finset.sum_div]
  exact div_self (ne_of_gt (expSum9_pos L))

/-- A convex combination of nine values lies between their minimum and
their maximum. -/
theorem convex_sum_bounds (wgt tap : Nat → ℝ)
    (h0 : ∀ t ∈ Finset.range 9, 0 ≤ wgt t)
    (h1 : ∑ t ∈ Finset.range 9, wgt t = 1) :
    (Finset.range 9).inf' range9_nonempty tap ≤
        ∑ t ∈ Finset.range 9, wgt t * tap t ∧
      ∑ t ∈ Finset.range 9, wgt t * tap t ≤
        (Finset.range 9).sup' range9_nonempty tap := by
  constructor
  · have hle : ∑ t ∈ Finset.range 9, wgt t * (Finset.range 9).inf' range9_nonempty tap ≤
        ∑ t ∈ Finset.range 9, wgt t * tap t :=
      Finset.sum_le_sum fun t ht =>
        mul_le_mul_of_nonneg_left (Finset.inf'_le tap ht) (h0 t ht)
    calc (Finset.range 9).inf' range9_nonempty tap
        = (∑ t ∈ Finset.range 9, wgt t) * (Finset.range 9).inf' range9_nonempty tap := by
          rw [h1, one_mul]
      _ = ∑ t ∈ Finset.range 9, wgt t * (Finset.range 9).inf' range9_nonempty tap :=
          Finset.sum_mul _ _ _
      _ ≤ ∑ t ∈ Finset.range 9, wgt t * tap t := hle
  · have hle : ∑ t ∈ Finset.range 9, wgt t * tap t ≤
        ∑ t ∈ Finset.range 9, wgt t * (Finset.range 9).sup' range9_nonempty tap :=
      Finset.sum_le_sum fun t ht =>
        mul_le_mul_of_nonneg_left (Finset.le_sup' tap ht) (h0 t ht)
    calc ∑ t ∈ Finset.range 9, wgt t * tap t
        ≤ ∑ t ∈ Finset.range 9, wgt t * (Finset.range 9).sup' range9_nonempty tap := hle
      _ = (∑ t ∈ Finset.range 9, wgt t) * (Finset.range 9).sup' range9_nonempty tap :=
          (Finset.sum_mul _ _ _).symm
      _ = (Finset.range 9).sup' range9_nonempty tap := by rw [h1, one_mul]

theorem catDim1_eq (t u : Tensor) (a c c' : Nat) (s : List Nat)
    (ht : t.shape = a :: c :: s) (hu : u.shape = a :: c' :: s) :
    catDim1 t u = Except.ok ⟨a :: (c + c') :: s, catDim1Data t u c⟩ := by
  unfold catDim1
  rw [ht, hu]
  simp

theorem catDim0_eq (t u : Tensor) (a a' : Nat) (s : List Nat)
    (ht : t.shape = a :: s) (hu : u.shape = a' :: s) :
    catDim0 t u = Except.ok ⟨(a + a') :: s, catDim0Data t u a⟩ := by
  unfold catDim0
  rw [ht, hu]
  simp

theorem interpolateBilinear_eq (t : Tensor) (b c hIn wIn k : Nat)
    (ht : t.shape = [b, c, hIn, wIn]) :
    interpolateBilinear t k =
      Except.ok ⟨[b, c, k * hIn, k * wIn], interpData t hIn wIn k⟩ := by
  unfold interpolateBilinear
  rw [ht]

theorem okBind (a : α) (f : α → Except GMErr β) : (Except.ok a >>= f) = f a := rfl

theorem smul_shape (r : ℝ) (t : Tensor) : (smul r t).shape = t.shape := rfl

theorem shape4_eq (t : Tensor) (a c hh ww : Nat) (ht : t.shape = [a, c, hh, ww]) :
    shape4 t = Except.ok (a, c, hh, ww) := by
  unfold shape4
  rw [ht]

theorem view7Mask_eq (mask0 : Tensor) (b K h w : Nat)
    (hm : mask0.shape = [b, 9 * (K * K), h, w]) :
    view7Mask mask0 b K h w =
      Except.ok ⟨[b, 1, 9, K, K, h, w], view7MaskData mask0 K⟩ := by
  unfold view7Mask
  rw [if_pos hm]

theorem view7Up_eq (unf : Tensor) (b fc h w : Nat)
    (hu : unf.shape = [b, fc * 9, h * w]) :
    view7Up unf b fc h w =
      Except.ok ⟨[b, fc, 9, 1, 1, h, w], view7UpData unf w⟩ := by
  unfold view7Up
  rw [if_pos hu]

theorem unfold3x3_eq (t : Tensor) (b c hh ww : Nat) (ht : t.shape = [b, c, hh, ww]) :
    unfold3x3 t = Except.ok ⟨[b, c * 9, hh * ww], unfold3x3Data t hh ww⟩ := by
  unfold unfold3x3
  rw [ht]

theorem mulSumDim2_eq (mask up : Tensor) (b o n k1 k2 hh ww b2 c n2 o1 o2 h2 w2 : Nat)
    (hm : mask.shape = [b, o, n, k1, k2, hh, ww])
    (hu : up.shape = [b2, c, n2, o1, o2, h2, w2]) :
    mulSumDim2 mask up = ⟨[b, c, k1, k2, hh, ww], mulSumDim2Data mask up n⟩ := by
  unfold mulSumDim2
  rw [hm, hu]

theorem permute014253_eq (t : Tensor) (d0 d1 d2 d3 d4 d5 : Nat)
    (ht : t.shape = [d0, d1, d2, d3, d4, d5]) :
    permute014253 t = ⟨[d0, d1, d4, d2, d5, d3], permute014253Data t⟩ := by
  unfold permute014253
  rw [ht]

theorem mergeKK_eq (t : Tensor) (b c d2 d3 d4 d5 : Nat)
    (ht : t.shape = [b, c, d2, d3, d4, d5]) :
    mergeKK t = ⟨[b, c, d2 * d3, d4 * d5], mergeKKData t d3 d5⟩ := by
  unfold mergeKK
  rw [ht]

theorem rowMajor_div (i j w : Nat) (hj : j < w) : (i * w + j) / w = i := by
  have hw : 0 < w := lt_of_le_of_lt (Nat.zero_le j) hj
  rw [Nat.add_comm, Nat.add_mul_div_right j i hw, Nat.div_eq_of_lt hj, Nat.zero_add]

theorem rowMajor_mod (i j w : Nat) (hj : j < w) : (i * w + j) % w = j := by
  rw [Nat.add_comm, Nat.add_mul_mod_self_right]
  exact Nat.mod_eq_of_lt hj

/-- Full description of the convex branch of `upsample_flow` under the
shapes that occur in the module: it succeeds, produces a tensor of
`m.upsample_factor` times the input resolution, and every in-range output
entry is the softmax-mask-weighted sum of the nine `convexTap` values. -/
theorem upsample_flow_convex_spec
    (m : GMFlow) (C : Collab) (flow feat concat : Tensor) (b fc h w uf : Nat)
    (hflow : flow.shape = [b, fc, h, w])
    (hcat : catDim1 flow feat = Except.ok concat)
    (hups : (C.upsampler concat).shape =
      [b, 9 * (m.upsample_factor * m.upsample_factor), h, w]) :
    ∃ out, upsample_flow m C flow (some feat) false uf = Except.ok out ∧
      out.shape = [b, fc, h * m.upsample_factor, w * m.upsample_factor] ∧
      ∀ bb cc y x, y < h * m.upsample_factor → x < w * m.upsample_factor →
        out.data [bb, cc, y, x] =
          ∑ t ∈ Finset.range 9,
            softmax9 (maskLogit (C.upsampler concat) m.upsample_factor bb
                (y % m.upsample_factor) (x % m.upsample_factor)
                (y / m.upsample_factor) (x / m.upsample_factor)) t *
              convexTap flow m.upsample_factor h w bb cc
                (y / m.upsample_factor) (x / m.upsample_factor) t := by
  have hrun : upsample_flow m C flow (some feat) false uf =
      Except.ok (mergeKK (permute014253 (mulSumDim2
        (softmaxDim2 ⟨[b, 1, 9, m.upsample_factor, m.upsample_factor, h, w],
          view7MaskData (C.upsampler concat) m.upsample_factor⟩)
        ⟨[b, fc, 9, 1, 1, h, w],
          view7UpData ⟨[b, fc * 9, h * w],
            unfold3x3Data (smul (m.upsample_factor : ℝ) flow) h w⟩ w⟩))) := by
    unfold upsample_flow
    rw [if_neg (by simp)]
    rw [show liftO (some feat) GMErr.typeError = Except.ok feat from rfl, okBind]
    rw [hcat, okBind]
    rw [shape4_eq flow b fc h w hflow, okBind]
    rw [view7Mask_eq (C.upsampler concat) b m.upsample_factor h w hups, okBind]
    rw [unfold3x3_eq (smul (m.upsample_factor : ℝ) flow) b fc h w
      (by rw [smul_shape, hflow]), okBind]
    rw [view7Up_eq _ b fc h w rfl, okBind]
  rw [mulSumDim2_eq _ _ b 1 9 m.upsample_factor m.upsample_factor h w
      b fc 9 1 1 h w rfl rfl] at hrun
  rw [permute014253_eq _ b fc m.upsample_factor m.upsample_factor h w rfl] at hrun
  rw [mergeKK_eq _ b fc h m.upsample_factor w m.upsample_factor rfl] at hrun
  refine ⟨_, hrun, rfl, ?_⟩
  intro bb cc y x _hy hx
  have hK : 0 < m.upsample_factor := by
    rcases Nat.eq_zero_or_pos m.upsample_factor with h0 | h0
    · rw [h0, Nat.mul_zero] at hx
      omega
    · exact h0
  have hj : x / m.upsample_factor < w := (Nat.div_lt_iff_lt_mul hK).mpr hx
  simp only [mergeKKData, permute014253Data, mulSumDim2Data, softmaxDim2,
    softmaxDim2Data, view7MaskData, view7UpData, unfold3x3Data, softmax9,
    maskLogit, convexTap, List.getD, List.get?, Option.getD_some]
  refine Finset.sum_congr rfl fun t ht => ?_
  have ht9 : t < 9 := Finset.mem_range.mp ht
  have e1 : (cc * 9 + t) / 9 = cc := by omega
  have e2 : (cc * 9 + t) % 9 = t := by omega
  have e3 : (y / m.upsample_factor * w + x / m.upsample_factor) / w =
      y / m.upsample_factor := rowMajor_div _ _ _ hj
  have e4 : (y / m.upsample_factor * w + x / m.upsample_factor) % w =
      x / m.upsample_factor := rowMajor_mod _ _ _ hj
  rw [e1, e2, e3, e4]

/-- C1: In convex upsampling (`upsample_flow` with `bilinear=False`), for
every output location the 9 softmax mask weights are non-negative and sum
to 1, the output displacement equals their weighted (convex) combination of
the 9 values in the 3×3 neighbourhood of the factor-scaled coarse flow
field, and therefore lies within the minimum and maximum of that
neighbourhood. -/
theorem C1_convex_upsample_is_convex_combination
    (m : GMFlow) (C : Collab) (flow feat concat : Tensor) (b fc h w uf : Nat)
    (hflow : flow.shape = [b, fc, h, w])
    (hcat : catDim1 flow feat = Except.ok concat)
    (hups : (C.upsampler concat).shape =
      [b, 9 * (m.upsample_factor * m.upsample_factor), h, w]) :
    ∃ out, upsample_flow m C flow (some feat) false uf = Except.ok out ∧
      out.shape = [b, fc, h * m.upsample_factor, w * m.upsample_factor] ∧
      ∀ bb cc y x, y < h * m.upsample_factor → x < w * m.upsample_factor →
        (∀ t ∈ Finset.range 9,
          0 ≤ softmax9 (maskLogit (C.upsampler concat) m.upsample_factor bb
            (y % m.upsample_factor) (x % m.upsample_factor)
            (y / m.upsample_factor) (x / m.upsample_factor)) t) ∧
        (∑ t ∈ Finset.range 9,
          softmax9 (maskLogit (C.upsampler concat) m.upsample_factor bb
            (y % m.upsample_factor) (x % m.upsample_factor)
            (y / m.upsample_factor) (x / m.upsample_factor)) t = 1) ∧
        out.data [bb, cc, y, x] =
          ∑ t ∈ Finset.range 9,
            softmax9 (maskLogit (C.upsampler concat) m.upsample_factor bb
                (y % m.upsample_factor) (x % m.upsample_factor)
                (y / m.upsample_factor) (x / m.upsample_factor)) t *
              convexTap flow m.upsample_factor h w bb cc
                (y / m.upsample_factor) (x / m.upsample_factor) t ∧
        (Finset.range 9).inf' range9_nonempty
            (convexTap flow m.upsample_factor h w bb cc
              (y / m.upsample_factor) (x / m.upsample_factor)) ≤
          out.data [bb, cc, y, x] ∧
        out.data [bb, cc, y, x] ≤
          (Finset.range 9).sup' range9_nonempty
            (convexTap flow m.upsample_factor h w bb cc
              (y / m.upsample_factor) (x / m.upsample_factor)) := by
  obtain ⟨out, hrun, hshape, hdata⟩ :=
    upsample_flow_convex_spec m C flow feat concat b fc h w uf hflow hcat hups
  refine ⟨out, hrun, hshape, ?_⟩
  intro bb cc y x hy hx
  have hd := hdata bb cc y x hy hx
  have hb := convex_sum_bounds
    (softmax9 (maskLogit (C.upsampler concat) m.upsample_factor bb
      (y % m.upsample_factor) (x % m.upsample_factor)
      (y / m.upsample_factor) (x / m.upsample_factor)))
    (convexTap flow m.upsample_factor h w bb cc
      (y / m.upsample_factor) (x / m.upsample_factor))
    (fun t _ => softmax9_nonneg _ t) (softmax9_sum_eq_one _)
  refine ⟨fun t _ => softmax9_nonneg _ t, softmax9_sum_eq_one _, hd, ?_, ?_⟩
  · rw [hd]
    exact hb.1
  · rw [hd]
    exact hb.2

/-- All-zero tensor of a given shape, used for concrete instantiations. -/
def tzero (s : List Nat) : Tensor := ⟨s, fun _ => 0⟩

/-- A concrete `1×1×1×1` image. -/
def imgW : Tensor := tzero [1, 1, 1, 1]

/-- A concrete `[1, 2, 1, 1]` flow field. -/
def flowW : Tensor := tzero [1, 2, 1, 1]

/-- A concrete `[1, 1, 1, 1]` feature map. -/
def featW : Tensor := tzero [1, 1, 1, 1]

/-- The concatenation of `flowW` and `featW` along channels. -/
def concatW : Tensor := ⟨[1, 3, 1, 1], catDim1Data flowW featW 2⟩

/-- Concrete collaborators whose output shapes satisfy all contracts used
in the witnesses: the backbone yields a `[1, 2, 1, 1]` stack (two
single-channel `1×1` features), the mask network yields 9 channels, the
propagator returns its flow input, the matchers return `[1, 2, 1, 1]`
flows, and the warp returns its feature input. -/
def collabW : Collab :=
  ⟨fun _ => tzero [1, 2, 1, 1],
   fun t => tzero [t.shape.getD 0 0, 9, t.shape.getD 2 0, t.shape.getD 3 0],
   fun _ v _ _ => v,
   fun _ _ _ => tzero [1, 2, 1, 1],
   fun _ _ _ => tzero [1, 2, 1, 1],
   fun f _ => f⟩

/-- Single-scale evaluation-mode model with upsample factor 1. -/
def mW1 : GMFlow := ⟨1, 1, 1, false⟩

/-- Single-scale training-mode model with upsample factor 1. -/
def mW1T : GMFlow := ⟨1, 1, 1, true⟩

/-- Two-scale evaluation-mode model with upsample factor 1. -/
def mW2 : GMFlow := ⟨2, 1, 1, false⟩

theorem C1_witness :
    ∃ out, upsample_flow mW1 collabW flowW (some featW) false 8 = Except.ok out ∧
      out.shape = [1, 2, 1 * mW1.upsample_factor, 1 * mW1.upsample_factor] ∧
      ∀ bb cc y x, y < 1 * mW1.upsample_factor → x < 1 * mW1.upsample_factor →
        (∀ t ∈ Finset.range 9,
          0 ≤ softmax9 (maskLogit (collabW.upsampler concatW) mW1.upsample_factor bb
            (y % mW1.upsample_factor) (x % mW1.upsample_factor)
            (y / mW1.upsample_factor) (x / mW1.upsample_factor)) t) ∧
        (∑ t ∈ Finset.range 9,
          softmax9 (maskLogit (collabW.upsampler concatW) mW1.upsample_factor bb
            (y % mW1.upsample_factor) (x % mW1.upsample_factor)
            (y / mW1.upsample_factor) (x / mW1.upsample_factor)) t = 1) ∧
        out.data [bb, cc, y, x] =
          ∑ t ∈ Finset.range 9,
            softmax9 (maskLogit (collabW.upsampler concatW) mW1.upsample_factor bb
                (y % mW1.upsample_factor) (x % mW1.upsample_factor)
                (y / mW1.upsample_factor) (x / mW1.upsample_factor)) t *
              convexTap flowW mW1.upsample_factor 1 1 bb cc
                (y / mW1.upsample_factor) (x / mW1.upsample_factor) t ∧
        (Finset.range 9).inf' range9_nonempty
            (convexTap flowW mW1.upsample_factor 1 1 bb cc
              (y / mW1.upsample_factor) (x / mW1.upsample_factor)) ≤
          out.data [bb, cc, y, x] ∧
        out.data [bb, cc, y, x] ≤
          (Finset.range 9).sup' range9_nonempty
            (convexTap flowW mW1.upsample_factor 1 1 bb cc
              (y / mW1.upsample_factor) (x / mW1.upsample_factor)) :=
  C1_convex_upsample_is_convex_combination mW1 collabW flowW featW concatW
    1 2 1 1 8 rfl rfl rfl

/-- C10: in convex mode the `upsample_factor` argument is ignored — the
result is the same for any two argument values — and the output resolution
is always `self.upsample_factor` (`m.upsample_factor`) times the input
resolution, which is also used for the mask reshape and flow scaling. -/
theorem C10_convex_ignores_upsample_factor_argument :
    (∀ (m : GMFlow) (C : Collab) (flow : Tensor) (feature : Option Tensor) (k k' : Nat),
      upsample_flow m C flow feature false k = upsample_flow m C flow feature false k') ∧
    ∀ (m : GMFlow) (C : Collab) (flow feat concat : Tensor) (b fc h w uf : Nat),
      flow.shape = [b, fc, h, w] →
      catDim1 flow feat = Except.ok concat →
      (C.upsampler concat).shape =
        [b, 9 * (m.upsample_factor * m.upsample_factor), h, w] →
      ∃ out, upsample_flow m C flow (some feat) false uf = Except.ok out ∧
        out.shape = [b, fc, m.upsample_factor * h, m.upsample_factor * w] := by
  constructor
  · intro m C flow feature k k'
    rfl
  · intro m C flow feat concat b fc h w uf hflow hcat hups
    obtain ⟨out, hrun, hshape, _⟩ :=
      upsample_flow_convex_spec m C flow feat concat b fc h w uf hflow hcat hups
    refine ⟨out, hrun, ?_⟩
    rw [hshape, Nat.mul_comm h m.upsample_factor, Nat.mul_comm w m.upsample_factor]

theorem C10_witness :
    upsample_flow mW1 collabW flowW (some featW) false 3 =
        upsample_flow mW1 collabW flowW (some featW) false 5 ∧
      ∃ out, upsample_flow mW1 collabW flowW (some featW) false 8 = Except.ok out ∧
        out.shape = [1, 2, mW1.upsample_factor * 1, mW1.upsample_factor * 1] :=
  ⟨C10_convex_ignores_upsample_factor_argument.1 mW1 collabW flowW (some featW) 3 5,
   C10_convex_ignores_upsample_factor_argument.2 mW1 collabW flowW featW concatW
     1 2 1 1 8 rfl rfl rfl⟩

/-- C6: bilinear upsampling returns a flow field at `factor` times the
input resolution whose values are the bilinearly interpolated input values
multiplied by the factor; no learned component (model, collaborators or
feature argument) is involved. -/
theorem C6_bilinear_upsample_scales_resolution_and_values
    (m : GMFlow) (C : Collab) (flow : Tensor) (feature : Option Tensor)
    (b c h w k : Nat) (hflow : flow.shape = [b, c, h, w]) :
    ∃ out, upsample_flow m C flow feature true k = Except.ok out ∧
      out.shape = [b, c, k * h, k * w] ∧
      (∀ idx, out.data idx = (k : ℝ) * interpData flow h w k idx) ∧
      ∀ (m' : GMFlow) (C' : Collab) (feature' : Option Tensor),
        upsample_flow m' C' flow feature' true k =
          upsample_flow m C flow feature true k := by
  have hrun : upsample_flow m C flow feature true k =
      Except.ok (smul (k : ℝ) ⟨[b, c, k * h, k * w], interpData flow h w k⟩) := by
    unfold upsample_flow
    rw [if_pos rfl]
    rw [interpolateBilinear_eq flow b c h w k hflow, okBind]
  exact ⟨_, hrun, rfl, fun idx => rfl, fun m' C' feature' => rfl⟩

theorem C6_witness :
    ∃ out, upsample_flow mW1 collabW flowW none true 2 = Except.ok out ∧
      out.shape = [1, 2, 2 * 1, 2 * 1] ∧
      (∀ idx, out.data idx = ((2 : Nat) : ℝ) * interpData flowW 1 1 2 idx) ∧
      ∀ (m' : GMFlow) (C' : Collab) (feature' : Option Tensor),
        upsample_flow m' C' flowW feature' true 2 =
          upsample_flow mW1 collabW flowW none true 2 :=
  C6_bilinear_upsample_scales_resolution_and_values mW1 collabW flowW none
    1 2 1 1 2 rfl

/-- C5: the effective upsample factor of scale `s` (line 108) equals
`F * 2^(num_scales - 1 - s)`, and for `num_scales = 1` it equals exactly
`F`. -/
theorem C5_effective_upsample_factor_formula (m : GMFlow) (s : Nat)
    (hs : s < m.num_scales) :
    effective_upsample_factor m s =
        m.upsample_factor * 2 ^ (m.num_scales - 1 - s) ∧
      (m.num_scales = 1 → effective_upsample_factor m s = m.upsample_factor) := by
  refine ⟨rfl, fun h1 => ?_⟩
  have hs0 : s = 0 := by omega
  subst hs0
  unfold effective_upsample_factor
  rw [h1]
  norm_num

theorem C5_witness :
    effective_upsample_factor mW1 0 =
        mW1.upsample_factor * 2 ^ (mW1.num_scales - 1 - 0) ∧
      (mW1.num_scales = 1 → effective_upsample_factor mW1 0 = mW1.upsample_factor) :=
  C5_effective_upsample_factor_formula mW1 0 (by decide)

/-- C8: `forward_image` is deterministic — two runs on identical model
state, collaborators and inputs produce identical results (the embedding
is a pure function; the module has no stochastic elements). -/
theorem C8_forward_image_deterministic
    (m : GMFlow) (C : Collab) (img0 img1 : Tensor) (attnL corrL propL : List Int)
    (bidir : Bool) (r1 r2 : List Event × Except GMErr (List Tensor))
    (h1 : r1 = forward_image m C img0 img1 attnL corrL propL bidir)
    (h2 : r2 = forward_image m C img0 img1 attnL corrL propL bidir) :
    r1 = r2 := by
  rw [h1, h2]

theorem C8_witness :
    forward_image mW1 collabW imgW imgW [0] [-1] [0] false =
      forward_image mW1 collabW imgW imgW [0] [-1] [0] false :=
  C8_forward_image_deterministic mW1 collabW imgW imgW [0] [-1] [0] false _ _ rfl rfl

theorem except_bind_ok (x : Except GMErr α) (f : α → Except GMErr β) (b : β) :
    (x >>= f = Except.ok b) ↔ ∃ a, x = Except.ok a ∧ f a = Except.ok b := by
  cases x <;> simp [Bind.bind, Except.bind]

/-- Number of predictions one scale iteration appends before propagation
(and, identically gated, after propagation). -/
def stepPredCount (m : GMFlow) (s : Nat) : Nat :=
  (if m.training = true ∧ s < m.num_scales - 1 then 1 else 0) +
    (if s = m.num_scales - 1 then 1 else 0)

theorem gatedUpsample_ok_length (cond : Prop) [Decidable cond]
    (u : Except GMErr Tensor) (l : List Tensor)
    (h : gatedUpsample cond u = Except.ok l) :
    l.length = if cond then 1 else 0 := by
  unfold gatedUpsample at h
  split at h
  case isTrue hc =>
    cases u with
    | error e => simp [Bind.bind, Except.bind] at h
    | ok t =>
        have ht : [t] = l := Except.ok.inj h
        rw [← ht, if_pos hc]
        rfl
  case isFalse hc =>
    have ht : ([] : List Tensor) = l := Except.ok.inj h
    rw [← ht, if_neg hc]
    rfl

theorem scaleStep_ok_preds_length (m : GMFlow) (C : Collab)
    (f0s f1s : List Tensor) (attnL corrL propL : List Int) (bidir : Bool)
    (s : Nat) (flow0 : Option Tensor) (out : StepOut)
    (h : scaleStep m C f0s f1s attnL corrL propL bidir s flow0 = Except.ok out) :
    out.preds.length = 2 * stepPredCount m s := by
  unfold scaleStep at h
  simp only [except_bind_ok] at h
  obtain ⟨pre, -, p1, hp1, p2, hp2, f0p, -, p3, hp3, p4, hp4, hout⟩ := h
  have hEq : (⟨pre.flowAcc, _, p1 ++ p2 ++ p3 ++ p4⟩ : StepOut) = out :=
    Except.ok.inj hout
  rw [← hEq]
  show (p1 ++ p2 ++ p3 ++ p4).length = 2 * stepPredCount m s
  rw [List.length_append, List.length_append, List.length_append]
  rw [gatedUpsample_ok_length _ _ _ hp1, gatedUpsample_ok_length _ _ _ hp2,
    gatedUpsample_ok_length _ _ _ hp3, gatedUpsample_ok_length _ _ _ hp4]
  unfold stepPredCount
  split_ifs <;> omega

theorem scaleLoop_ok_length (m : GMFlow) (C : Collab) (f0s f1s : List Tensor)
    (attnL corrL propL : List Int) (bidir : Bool) :
    ∀ (l : List Nat) (flow0 : Option Tensor) (acc res : List Tensor),
      (scaleLoop m C f0s f1s attnL corrL propL bidir l flow0 acc).2 =
        Except.ok res →
      res.length = acc.length + (l.map (fun s => 2 * stepPredCount m s)).sum := by
  intro l
  induction l with
  | nil =>
      intro flow0 acc res h
      have hr : acc = res := Except.ok.inj h
      rw [← hr]
      simp
  | cons s rest ih =>
      intro flow0 acc res h
      unfold scaleLoop at h
      cases hstep : scaleStep m C f0s f1s attnL corrL propL bidir s flow0 with
      | error e =>
          rw [hstep] at h
          simp at h
      | ok out =>
          rw [hstep] at h
          simp only at h
          have hlen := ih (some out.flowOut) (acc ++ out.preds) res h
          rw [hlen, List.length_append,
            scaleStep_ok_preds_length m C f0s f1s attnL corrL propL bidir s flow0 out hstep,
            List.map_cons, List.sum_cons]
          omega

theorem list_range_sum_const (f : Nat → Nat) (c : Nat) :
    ∀ n, (∀ s, s < n → f s = c) → ((List.range n).map f).sum = n * c := by
  intro n
  induction n with
  | zero => intro _; simp
  | succ k ih =>
      intro hf
      rw [List.range_succ, List.map_append, List.sum_append,
        ih (fun s hs => hf s (by omega))]
      simp [hf k (by omega)]
      ring

theorem range_sum_stepPredCount (m : GMFlow) (hN : 1 ≤ m.num_scales) :
    ((List.range m.num_scales).map (fun s => 2 * stepPredCount m s)).sum =
      2 + (if m.training = true then 2 * (m.num_scales - 1) else 0) := by
  obtain ⟨n, hn⟩ : ∃ n, m.num_scales = n + 1 := ⟨m.num_scales - 1, by omega⟩
  rw [hn, List.range_succ, List.map_append, List.sum_append]
  have hpre : ((List.range n).map (fun s => 2 * stepPredCount m s)).sum =
      n * (if m.training = true then 2 else 0) := by
    apply list_range_sum_const
    intro s hs
    unfold stepPredCount
    rw [hn]
    by_cases htr : m.training = true
    · rw [if_pos htr, if_pos ⟨htr, by omega⟩, if_neg (by omega)]
    · rw [if_neg htr, if_neg (by tauto), if_neg (by omega)]
  have hlast : stepPredCount m n = 1 := by
    unfold stepPredCount
    rw [hn]
    rw [if_neg (by omega), if_pos (by omega)]
  rw [hpre]
  simp [hlast]
  by_cases htr : m.training = true <;> simp [htr] <;> omega

theorem forward_image_eq_of_extract (m : GMFlow) (C : Collab)
    (img0 img1 : Tensor) (attnL corrL propL : List Int) (bidir : Bool)
    (fs : List Tensor × List Tensor)
    (hE : extract_feature C img0 img1 = Except.ok fs) :
    forward_image m C img0 img1 attnL corrL propL bidir =
      if attnL.length = corrL.length ∧ corrL.length = propL.length ∧
          propL.length = m.num_scales then
        (Event.extract ::
          (scaleLoop m C fs.1 fs.2 attnL corrL propL bidir
            (List.range m.num_scales) none []).1,
         (scaleLoop m C fs.1 fs.2 attnL corrL propL bidir
            (List.range m.num_scales) none []).2)
      else ([Event.extract], Except.error GMErr.assertionError) := by
  unfold forward_image
  rw [hE]

theorem forward_image_eq_of_extract_error (m : GMFlow) (C : Collab)
    (img0 img1 : Tensor) (attnL corrL propL : List Int) (bidir : Bool)
    (e : GMErr) (hE : extract_feature C img0 img1 = Except.error e) :
    forward_image m C img0 img1 attnL corrL propL bidir =
      ([Event.extract], Except.error e) := by
  unfold forward_image
  rw [hE]

/-- C2: whenever `forward_image` returns a prediction sequence, its length
is 2 (the unconditional pre- and post-propagation convex upsamples of the
last scale) plus, in training mode only, 2 bilinear upsamples for each
non-last scale; in particular 2 entries for `num_scales = 1` in either
mode. -/
theorem C2_prediction_sequence_length
    (m : GMFlow) (C : Collab) (img0 img1 : Tensor) (attnL corrL propL : List Int)
    (bidir : Bool) (preds : List Tensor)
    (hN : 1 ≤ m.num_scales)
    (h : (forward_image m C img0 img1 attnL corrL propL bidir).2 = Except.ok preds) :
    preds.length = 2 + (if m.training = true then 2 * (m.num_scales - 1) else 0) := by
  cases hE : extract_feature C img0 img1 with
  | error e =>
      rw [forward_image_eq_of_extract_error m C img0 img1 attnL corrL propL
        bidir e hE] at h
      simp at h
  | ok fs =>
      rw [forward_image_eq_of_extract m C img0 img1 attnL corrL propL
        bidir fs hE] at h
      split at h
      · dsimp only at h
        have := scaleLoop_ok_length m C fs.1 fs.2 attnL corrL propL bidir
          (List.range m.num_scales) none [] preds h
        rw [this, List.length_nil, Nat.zero_add]
        exact range_sum_stepPredCount m hN
      · simp at h

theorem C2_witness :
    ∃ preds, (forward_image mW1T collabW imgW imgW [0] [-1] [0] false).2 =
        Except.ok preds ∧
      preds.length =
        2 + (if mW1T.training = true then 2 * (mW1T.num_scales - 1) else 0) := by
  obtain ⟨preds, hp⟩ :
      ∃ preds, (forward_image mW1T collabW imgW imgW [0] [-1] [0] false).2 =
        Except.ok preds := ⟨_, rfl⟩
  exact ⟨preds, hp, C2_prediction_sequence_length mW1T collabW imgW imgW
    [0] [-1] [0] false preds (by decide) hp⟩

theorem errBind (e : GMErr) (f : α → Except GMErr β) :
    ((Except.error e : Except GMErr α) >>= f) = Except.error e := rfl

theorem gatedUpsample_of_false (cond : Prop) [Decidable cond]
    (u : Except GMErr Tensor) (hc : ¬cond) :
    gatedUpsample cond u = Except.ok [] := by
  unfold gatedUpsample
  rw [if_neg hc]

theorem gatedUpsample_of_true_error (cond : Prop) [Decidable cond]
    (u : Except GMErr Tensor) (e : GMErr) (hc : cond) (hu : u = Except.error e) :
    gatedUpsample cond u = Except.error e := by
  unfold gatedUpsample
  rw [if_pos hc, hu]
  rfl

theorem upsample_flow_bilinear_eq (m : GMFlow) (C : Collab) (flow : Tensor)
    (feature : Option Tensor) (b c hh ww k : Nat) (hs : flow.shape = [b, c, hh, ww]) :
    upsample_flow m C flow feature true k =
      Except.ok (smul (k : ℝ) ⟨[b, c, k * hh, k * ww], interpData flow hh ww k⟩) := by
  unfold upsample_flow
  rw [if_pos rfl, interpolateBilinear_eq flow b c hh ww k hs, okBind]

theorem gatedUpsample_bilinear_ok (cond : Prop) [Decidable cond]
    (m : GMFlow) (C : Collab) (flow : Tensor) (feature : Option Tensor)
    (b c hh ww k : Nat) (hs : flow.shape = [b, c, hh, ww]) :
    ∃ l, gatedUpsample cond (upsample_flow m C flow feature true k) =
      Except.ok l := by
  by_cases hc : cond
  · refine ⟨[smul (k : ℝ) ⟨[b, c, k * hh, k * ww], interpData flow hh ww k⟩], ?_⟩
    unfold gatedUpsample
    rw [if_pos hc, upsample_flow_bilinear_eq m C flow feature b c hh ww k hs, okBind]
  · exact ⟨[], gatedUpsample_of_false cond _ hc⟩

/-- The first scale with global matching: lines 101-133 reduce to the raw
global correlation prediction — no warp, no interpolation, no addition. -/
theorem scaleStepPre_scale0_global (m : GMFlow) (C : Collab) (f0 f1 : Tensor)
    (aL cR pR : List Int) (a p : Int) (bidir : Bool) :
    scaleStepPre m C [f0] [f1] (a :: aL) (-1 :: cR) (p :: pR) bidir 0 none =
      Except.ok ⟨f0, f1, C.global_correlation_softmax f0 f1 bidir, p⟩ := by
  unfold scaleStepPre
  simp [liftO, okBind]

/-- C3 counterexample: with mismatched per-scale parameter lists the call
fails with the assertion error, but only *after* feature extraction: the
event trace of the failing run contains the extraction event, refuting
"no feature extraction is performed". -/
theorem C3_counterexample_extraction_precedes_assert :
    forward_image mW1 collabW imgW imgW [] [] [] false =
      ([Event.extract], Except.error GMErr.assertionError) := rfl

/-- C3 (amended): when feature extraction succeeds and the three per-scale
parameter lists do not all have length `num_scales`, the call fails with
the assertion error after feature extraction but before any per-scale
computation (the trace is exactly `[extract]`, with no scale started). -/
theorem C3_amended_assert_after_extraction
    (m : GMFlow) (C : Collab) (img0 img1 : Tensor) (attnL corrL propL : List Int)
    (bidir : Bool) (fs : List Tensor × List Tensor)
    (hE : extract_feature C img0 img1 = Except.ok fs)
    (hmis : ¬(attnL.length = corrL.length ∧ corrL.length = propL.length ∧
        propL.length = m.num_scales)) :
    forward_image m C img0 img1 attnL corrL propL bidir =
      ([Event.extract], Except.error GMErr.assertionError) := by
  rw [forward_image_eq_of_extract m C img0 img1 attnL corrL propL bidir fs hE,
    if_neg hmis]

theorem C3_witness :
    forward_image mW1 collabW imgW imgW [-1, -1] [-1] [0] false =
      ([Event.extract], Except.error GMErr.assertionError) := by
  obtain ⟨fs, hE⟩ : ∃ fs, extract_feature collabW imgW imgW = Except.ok fs :=
    ⟨_, rfl⟩
  exact C3_amended_assert_after_extraction mW1 collabW imgW imgW
    [-1, -1] [-1] [0] false fs hE (by decide)

/-- Collaborators for a two-scale scenario: the local matcher answers at
the doubled resolution `[1, 2, 2, 2]` expected at the second scale. -/
def collabW2 : Collab :=
  ⟨fun _ => tzero [1, 2, 1, 1],
   fun t => tzero [t.shape.getD 0 0, 9, t.shape.getD 2 0, t.shape.getD 3 0],
   fun _ v _ _ => v,
   fun _ _ _ => tzero [1, 2, 1, 1],
   fun _ _ _ => tzero [1, 2, 2, 2],
   fun f _ => f⟩

/-- C4 (code bug): a two-scale run of `forward_image` always raises
`IndexError` at the second scale, because `extract_feature` returns
single-element feature lists regardless of `num_scales` — the claimed
second-scale behaviour is unreachable.  The residual-accumulation logic of
the loop body itself does behave as claimed: at scale 0 with global
matching the accumulated flow is the raw correlation prediction (no
addition), and at scale 1 the accumulated flow is pointwise the
2×-bilinearly-upsampled, value-doubled previous flow plus the second
scale's correlation prediction. -/
theorem C4_two_scale_run_crashes_and_loop_body_accumulates :
    (forward_image mW2 collabW imgW imgW [0, 0] [-1, 1] [0, 0] false).2 =
        Except.error GMErr.indexError ∧
      scaleStepPre mW2 collabW [featW] [featW] [0, 0] [-1, 1] [0, 0] false 0 none =
        Except.ok ⟨featW, featW,
          collabW.global_correlation_softmax featW featW false, 0⟩ ∧
      ∃ pre, scaleStepPre mW2 collabW2 [featW, featW] [featW, featW]
          [0, 0] [-1, 1] [0, 0] false 1 (some flowW) = Except.ok pre ∧
        ∀ idx, pre.flowAcc.data idx =
          2 * interpData flowW 1 1 2 idx +
            (collabW2.local_correlation_softmax featW featW 1).data idx :=
  ⟨rfl,
   scaleStepPre_scale0_global mW2 collabW featW featW [0] [1] [0] 0 0 false,
   ⟨_, rfl, fun _ => rfl⟩⟩

/-- C7: at scale 0 of a bidirectional multi-scale run, the correlation step
is invoked with the symmetric-output flag, so (by its contract) the
accumulated flow is the batch concatenation of the forward and backward
flows; propagation is invoked on `feature0 ‖ feature1`, and (by the
propagator's shape contract) the propagated flow has batch dimension
exactly `2·B`, double the input batch. -/
theorem C7_bidirectional_scale0_doubles_batch
    (m : GMFlow) (C : Collab) (f0 f1 gf gb G F01 : Tensor)
    (B ch h w : Nat) (aL cR pR : List Int) (a p : Int)
    (hN : 2 ≤ m.num_scales)
    (hf0 : f0.shape = [B, ch, h, w])
    (hf1 : f1.shape = [B, ch, h, w])
    (hgf : gf.shape = [B, 2, h, w])
    (hgb : gb.shape = [B, 2, h, w])
    (hG : catDim0 gf gb = Except.ok G)
    (hcorr : C.global_correlation_softmax f0 f1 true = G)
    (hF01 : catDim0 f0 f1 = Except.ok F01)
    (hattn : ∀ feat v lw r, (C.feature_flow_attn feat v lw r).shape = v.shape) :
    ∃ out, scaleStep m C [f0] [f1] (a :: aL) (-1 :: cR) (p :: pR) true 0 none =
        Except.ok out ∧
      out.preProp = G ∧
      (∀ bb rest, bb < B → G.data (bb :: rest) = gf.data (bb :: rest)) ∧
      (∀ bb rest, G.data ((B + bb) :: rest) = gb.data (bb :: rest)) ∧
      out.flowOut = C.feature_flow_attn F01 (detach G) (decide (0 < p)) p ∧
      out.flowOut.shape = [2 * B, 2, h, w] := by
  have hGexp : catDim0 gf gb =
      Except.ok ⟨(B + B) :: [2, h, w], catDim0Data gf gb B⟩ :=
    catDim0_eq gf gb B B [2, h, w] hgf hgb
  have hGval : G = ⟨(B + B) :: [2, h, w], catDim0Data gf gb B⟩ :=
    (Except.ok.inj (hG.symm.trans hGexp))
  have hGshape : G.shape = [B + B, 2, h, w] := by rw [hGval]
  have hpre : scaleStepPre m C [f0] [f1] (a :: aL) (-1 :: cR) (p :: pR) true 0 none =
      Except.ok ⟨f0, f1, G, p⟩ := by
    rw [scaleStepPre_scale0_global m C f0 f1 aL cR pR a p true, hcorr]
  have hcond1 : ¬((0 : Nat) = m.num_scales - 1) := by omega
  obtain ⟨l1, hl1⟩ := gatedUpsample_bilinear_ok
    (m.training = true ∧ 0 < m.num_scales - 1) m C G none
    (B + B) 2 h w (effective_upsample_factor m 0) hGshape
  have hflowOutShape :
      (C.feature_flow_attn F01 (detach G) (decide (0 < p)) p).shape =
        [B + B, 2, h, w] := by
    rw [hattn]
    exact hGshape
  obtain ⟨l3, hl3⟩ := gatedUpsample_bilinear_ok
    (m.training = true ∧ 0 < m.num_scales - 1) m C
    (C.feature_flow_attn F01 (detach G) (decide (0 < p)) p) (some F01)
    (B + B) 2 h w (effective_upsample_factor m 0) hflowOutShape
  have hstep : scaleStep m C [f0] [f1] (a :: aL) (-1 :: cR) (p :: pR) true 0 none =
      Except.ok ⟨G, C.feature_flow_attn F01 (detach G) (decide (0 < p)) p,
        l1 ++ [] ++ l3 ++ []⟩ := by
    unfold scaleStep
    rw [hpre, okBind]
    simp only [okBind, hl1, hF01, hl3,
      gatedUpsample_of_false ((0 : Nat) = m.num_scales - 1) _ hcond1,
      if_pos (⟨rfl, rfl⟩ : true = true ∧ (0 : Nat) = 0)]
    simp only [and_self, if_true, okBind, hl3]
  refine ⟨_, hstep, rfl, ?_, ?_, rfl, ?_⟩
  · intro bb rest hbb
    rw [hGval]
    show (if bb < B then gf.data (bb :: rest) else gb.data ((bb - B) :: rest)) =
      gf.data (bb :: rest)
    rw [if_pos hbb]
  · intro bb rest
    rw [hGval]
    show (if B + bb < B then gf.data ((B + bb) :: rest)
        else gb.data ((B + bb - B) :: rest)) = gb.data (bb :: rest)
    rw [if_neg (by omega)]
    have hsub : B + bb - B = bb := by omega
    rw [hsub]
  · show (C.feature_flow_attn F01 (detach G) (decide (0 < p)) p).shape =
      [2 * B, 2, h, w]
    rw [hflowOutShape]
    have hBB : B + B = 2 * B := by omega
    rw [hBB]

/-- Batch concatenation of two copies of `flowW`: a concrete batch-2
bidirectional flow field. -/
def gW : Tensor := ⟨[2, 2, 1, 1], catDim0Data flowW flowW 1⟩

/-- Batch concatenation of two copies of `featW`. -/
def f01W : Tensor := ⟨[2, 1, 1, 1], catDim0Data featW featW 1⟩

/-- Collaborators for the bidirectional witnesses: the global matcher
returns the batch-doubled flow `gW`. -/
def collabW7 : Collab :=
  ⟨fun _ => tzero [1, 2, 1, 1],
   fun t => tzero [t.shape.getD 0 0, 9, t.shape.getD 2 0, t.shape.getD 3 0],
   fun _ v _ _ => v,
   fun _ _ _ => gW,
   fun _ _ _ => tzero [1, 2, 1, 1],
   fun f _ => f⟩

theorem C7_witness :
    ∃ out, scaleStep mW2 collabW7 [featW] [featW] ((0 : Int) :: [])
        ((-1 : Int) :: []) ((0 : Int) :: []) true 0 none = Except.ok out ∧
      out.preProp = gW ∧
      (∀ bb rest, bb < 1 → gW.data (bb :: rest) = flowW.data (bb :: rest)) ∧
      (∀ bb rest, gW.data ((1 + bb) :: rest) = flowW.data (bb :: rest)) ∧
      out.flowOut = collabW7.feature_flow_attn f01W (detach gW)
        (decide ((0 : Int) < 0)) 0 ∧
      out.flowOut.shape = [2 * 1, 2, 1, 1] :=
  C7_bidirectional_scale0_doubles_batch mW2 collabW7 featW featW flowW flowW
    gW f01W 1 1 1 1 [] [] [] 0 0 (by decide) rfl rfl rfl rfl rfl rfl rfl
    (fun feat v lw r => rfl)

theorem scaleLoop_cons_error (m : GMFlow) (C : Collab) (f0s f1s : List Tensor)
    (aL cL pL : List Int) (bidir : Bool) (s : Nat) (rest : List Nat)
    (flow0 : Option Tensor) (acc : List Tensor) (e : GMErr)
    (hstep : scaleStep m C f0s f1s aL cL pL bidir s flow0 = Except.error e) :
    scaleLoop m C f0s f1s aL cL pL bidir (s :: rest) flow0 acc =
      ([Event.scaleStart s], Except.error e) := by
  unfold scaleLoop
  rw [hstep]

/-- C9: with `pred_bidir_flow=true` and a single scale, the bidirectional
matcher returns a batch-`2B` flow while `feature0` is still batch-`B`
(the batch concatenation of `feature0` happens only afterwards, for
propagation), so the pre-propagation convex upsample's channel-wise
concatenation fails with a shape error and the whole call errors; the
feature the pre-propagation upsample receives has batch `B` while the one
the post-propagation upsample would receive has batch `2B`. -/
theorem C9_bidir_single_scale_preprop_convex_shape_error
    (m : GMFlow) (C : Collab) (img0 img1 f0 f1 : Tensor)
    (B ch h w : Nat) (a p : Int)
    (hN : m.num_scales = 1)
    (hB : 0 < B)
    (hE : extract_feature C img0 img1 = Except.ok ([f0], [f1]))
    (hf0 : f0.shape = [B, ch, h, w])
    (hf1 : f1.shape = [B, ch, h, w])
    (hcorr : (C.global_correlation_softmax f0 f1 true).shape = [2 * B, 2, h, w]) :
    upsample_flow m C (C.global_correlation_softmax f0 f1 true) (some f0)
        false 8 = Except.error GMErr.shapeError ∧
      (forward_image m C img0 img1 [a] [-1] [p] true).2 =
        Except.error GMErr.shapeError ∧
      f0.shape.headD 0 = B ∧
      (∃ F01, catDim0 f0 f1 = Except.ok F01 ∧ F01.shape.headD 0 = 2 * B) ∧
      B ≠ 2 * B := by
  have hcat : catDim1 (C.global_correlation_softmax f0 f1 true) f0 =
      Except.error GMErr.shapeError := by
    unfold catDim1
    rw [hcorr, hf0]
    have hne : 2 * B ≠ B := by omega
    simp [hne]
  have h1 : upsample_flow m C (C.global_correlation_softmax f0 f1 true)
      (some f0) false 8 = Except.error GMErr.shapeError := by
    unfold upsample_flow
    rw [if_neg (by simp)]
    rw [show liftO (some f0) GMErr.typeError = Except.ok f0 from rfl, okBind, hcat]
    rfl
  have hg1 : gatedUpsample (m.training = true ∧ 0 < m.num_scales - 1)
      (upsample_flow m C (C.global_correlation_softmax f0 f1 true) none true
        (effective_upsample_factor m 0)) = Except.ok [] := by
    apply gatedUpsample_of_false
    rintro ⟨-, hlt⟩
    rw [hN] at hlt
    omega
  have hg2 : gatedUpsample ((0 : Nat) = m.num_scales - 1)
      (upsample_flow m C (C.global_correlation_softmax f0 f1 true) (some f0)
        false 8) = Except.error GMErr.shapeError :=
    gatedUpsample_of_true_error _ _ _ (by omega) h1
  have hstep : scaleStep m C [f0] [f1] [a] [-1] [p] true 0 none =
      Except.error GMErr.shapeError := by
    unfold scaleStep
    rw [scaleStepPre_scale0_global m C f0 f1 [] [] [] a p true, okBind]
    simp only [okBind, errBind, hg1, hg2]
  have h2 : (forward_image m C img0 img1 [a] [-1] [p] true).2 =
      Except.error GMErr.shapeError := by
    rw [forward_image_eq_of_extract m C img0 img1 [a] [-1] [p] true
      ([f0], [f1]) hE]
    rw [if_pos ⟨rfl, rfl, hN.symm⟩]
    dsimp only
    rw [hN]
    rw [show List.range 1 = [0] from rfl]
    rw [scaleLoop_cons_error m C [f0] [f1] [a] [-1] [p] true 0 [] none []
      GMErr.shapeError hstep]
  refine ⟨h1, h2, by rw [hf0]; rfl, ?_, by omega⟩
  refine ⟨_, catDim0_eq f0 f1 B B [ch, h, w] hf0 hf1, ?_⟩
  show ((B + B) :: [ch, h, w]).headD 0 = 2 * B
  simp
  omega

theorem C9_witness :
    ∃ f0 f1, extract_feature collabW7 imgW imgW = Except.ok ([f0], [f1]) ∧
      upsample_flow mW1 collabW7
          (collabW7.global_correlation_softmax f0 f1 true) (some f0) false 8 =
        Except.error GMErr.shapeError ∧
      (forward_image mW1 collabW7 imgW imgW [0] [-1] [0] true).2 =
        Except.error GMErr.shapeError ∧
      f0.shape.headD 0 = 1 ∧
      (∃ F01, catDim0 f0 f1 = Except.ok F01 ∧ F01.shape.headD 0 = 2 * 1) ∧
      (1 : Nat) ≠ 2 * 1 := by
  refine ⟨_, _, rfl, ?_⟩
  exact C9_bidir_single_scale_preprop_convex_shape_error mW1 collabW7 imgW imgW
    _ _ 1 1 1 1 0 0 rfl (by decide) rfl rfl rfl rfl
